import Mathlib

/-!
Verification of the StockScorePro scoring pipeline (stockscorepro.py).

The numeric domain of the program is IEEE double (numpy float64 inside
pandas).  We model a float as `PyF`: an exact rational together with the
special values nan, inf and ninf, with the IEEE propagation rules used by
numpy (division by zero yields a signed infinity or nan, never an
exception; comparisons against nan are false).  Rounding error of float
arithmetic is not modelled: finite values carry exact rationals.

The transcendental `math.exp` cannot be expressed over rationals, so every
definition that needs it is parameterised by the finite-argument
approximation `E : Rat -> Rat`; theorems that depend on facts about
`math.exp` (for instance that exp 0 = 1 exactly, or that exp of a
nonpositive argument lies in [0,1]) take those facts as hypotheses.
-/

/-- A numpy float64 value: an exact rational, or one of the special
values nan, positive infinity, negative infinity. -/
inductive PyF where
  | fin (q : ℚ)
  | nan
  | inf
  | ninf
deriving DecidableEq, Repr

namespace PyF

/-- Python `x < y` on floats: any comparison involving nan is false. -/
def lt : PyF → PyF → Bool
  | fin a, fin b => decide (a < b)
  | fin _, inf => true
  | ninf, fin _ => true
  | ninf, inf => true
  | _, _ => false

/-- Python `x <= y` on floats: any comparison involving nan is false. -/
def le : PyF → PyF → Bool
  | fin a, fin b => decide (a ≤ b)
  | fin _, inf => true
  | ninf, fin _ => true
  | ninf, inf => true
  | ninf, ninf => true
  | inf, inf => true
  | _, _ => false

/-- IEEE negation. -/
def neg : PyF → PyF
  | fin a => fin (-a)
  | nan => nan
  | inf => ninf
  | ninf => inf

/-- IEEE addition: nan propagates, inf + (-inf) = nan. -/
def add : PyF → PyF → PyF
  | fin a, fin b => fin (a + b)
  | nan, _ => nan
  | _, nan => nan
  | inf, ninf => nan
  | ninf, inf => nan
  | inf, _ => inf
  | _, inf => inf
  | ninf, _ => ninf
  | _, ninf => ninf

/-- IEEE subtraction, as addition of the negation. -/
def sub (a b : PyF) : PyF := a.add b.neg

/-- IEEE multiplication: nan propagates, inf times zero is nan. -/
def mul : PyF → PyF → PyF
  | fin a, fin b => fin (a * b)
  | nan, _ => nan
  | _, nan => nan
  | inf, inf => inf
  | inf, ninf => ninf
  | ninf, inf => ninf
  | ninf, ninf => inf
  | inf, fin b => if 0 < b then inf else if b < 0 then ninf else nan
  | fin a, inf => if 0 < a then inf else if a < 0 then ninf else nan
  | ninf, fin b => if 0 < b then ninf else if b < 0 then inf else nan
  | fin a, ninf => if 0 < a then ninf else if a < 0 then inf else nan

/-- numpy float64 division: division by zero yields a signed infinity
(or nan for 0/0) with only a runtime warning, never an exception.
Signed zeros are not modelled. -/
def div : PyF → PyF → PyF
  | fin a, fin b =>
      if b = 0 then (if 0 < a then inf else if a < 0 then ninf else nan)
      else fin (a / b)
  | nan, _ => nan
  | _, nan => nan
  | fin _, inf => fin 0
  | fin _, ninf => fin 0
  | inf, fin b => if b < 0 then ninf else inf
  | ninf, fin b => if b < 0 then inf else ninf
  | inf, inf => nan
  | inf, ninf => nan
  | ninf, inf => nan
  | ninf, ninf => nan

/-- Python `abs` on floats. -/
def habs : PyF → PyF
  | fin a => fin |a|
  | nan => nan
  | inf => inf
  | ninf => inf

/-- math.isnan. -/
def isnan : PyF → Bool
  | nan => true
  | _ => false

/-- math.isinf. -/
def isinf : PyF → Bool
  | inf => true
  | ninf => true
  | _ => false

/-- True exactly on finite values (neither nan nor infinite). -/
def isFinite : PyF → Bool
  | fin _ => true
  | _ => false

end PyF

/-- Python builtin `max(a, b)`: returns b when b > a, else a
(so max(a, nan) = a and max(nan, b) = nan). -/
def pymax (a b : PyF) : PyF := if a.lt b then b else a

/-- Python builtin `min(a, b)`: returns b when b < a, else a. -/
def pymin (a b : PyF) : PyF := if b.lt a then b else a

/-- A model of `math.exp` on floats, parameterised by the approximation
`E` used on finite arguments.  math.exp(-inf) is exactly 0.0 and
math.exp(nan) is nan.  math.exp(+inf) actually raises OverflowError in
Python; in this program the argument is always nonpositive, nan or -inf,
so the inf case is unreachable and is mapped to inf without modelling the
exception. -/
def pyexp (E : ℚ → ℚ) : PyF → PyF
  | PyF.fin a => PyF.fin (E a)
  | PyF.nan => PyF.nan
  | PyF.ninf => PyF.fin 0
  | PyF.inf => PyF.inf

/-- pandas `.round(2)` on a float: round to 2 decimal places.  Ties are
rounded half away from zero here whereas pandas rounds half to even; no
claim in this development exercises a tie. -/
def pyround2 : PyF → PyF
  | PyF.fin a => PyF.fin ((round (a * 100) : ℤ) / 100 : ℚ)
  | x => x

/-- The result dictionary built by fetch_stock_data, one per ticker.
Every key the program ever stores is a field; CurrentPrice and MA50 are
optional because the failure path stores None there. -/
@[ext]
structure ScoreResult where
  Ticker : String
  Company : String
  CurrentPrice : Option PyF
  MA50 : Option PyF
  DistancePct : PyF
  Flatness : PyF
  Proximity : PyF
  Bonus : PyF
  Score : PyF
deriving DecidableEq, Repr

/-- The condition of the first validation rule (source line 24):
CurrentPrice is None, or MA50 is None, or CurrentPrice <= 0, or
MA50 <= 0, with Python short-circuit evaluation. -/
def badPrices (r : ScoreResult) : Bool :=
  match r.CurrentPrice, r.MA50 with
  | none, _ => true
  | _, none => true
  | some cp, some ma50 => cp.le (PyF.fin 0) || ma50.le (PyF.fin 0)

/-- validate_result, first mutation (source lines 21-27): if the prices
are bad, force Score to 0.0. -/
def vStepPrices (r : ScoreResult) : ScoreResult :=
  if badPrices r then { r with Score := PyF.fin 0 } else r

/-- validate_result, second mutation (source lines 29-33): clamp
Flatness into [0, 1] via Python max(0, min(flatness, 1)) when it is
outside that range. -/
def vStepFlatness (r : ScoreResult) : ScoreResult :=
  if r.Flatness.lt (PyF.fin 0) || (PyF.fin 1).lt r.Flatness then
    { r with Flatness := pymax (PyF.fin 0) (pymin r.Flatness (PyF.fin 1)) }
  else r

/-- validate_result, third mutation (source lines 35-39): same clamp for
Proximity. -/
def vStepProximity (r : ScoreResult) : ScoreResult :=
  if r.Proximity.lt (PyF.fin 0) || (PyF.fin 1).lt r.Proximity then
    { r with Proximity := pymax (PyF.fin 0) (pymin r.Proximity (PyF.fin 1)) }
  else r

/-- validate_result, fourth mutation (source lines 41-45): force Bonus
to 1.0 when Bonus < 1. -/
def vStepBonus (r : ScoreResult) : ScoreResult :=
  if r.Bonus.lt (PyF.fin 1) then { r with Bonus := PyF.fin 1 } else r

/-- validate_result, fifth mutation (source lines 47-51): force Score to
0.0 when it is nan or infinite.  It reads the Score already updated by
the first rule, as the Python dict mutation does. -/
def vStepScore (r : ScoreResult) : ScoreResult :=
  if r.Score.isnan || r.Score.isinf then { r with Score := PyF.fin 0 } else r

/-- validate_result (source lines 16-53): the five sequential dict
mutations, applied in source order. -/
def validate_result (r : ScoreResult) : ScoreResult :=
  vStepScore (vStepBonus (vStepProximity (vStepFlatness (vStepPrices r))))

/-- The company-name part of yfinance Ticker.info: the two keys the
program reads.  A key can be absent (None) or present with any string,
possibly empty. -/
structure InfoDict where
  longName : Option String
  shortName : Option String
deriving DecidableEq, Repr

/-- The outcome of the external yfinance calls inside the try block:
either some call raised, or they returned an info dict together with the
chronologically sorted daily closing prices of the requested window
(the program sorts by index before computing; individual closes can be
nan when the feed has gaps). -/
inductive FetchOutcome where
  | raises
  | ok (info : InfoDict) (closes : List PyF)
deriving DecidableEq, Repr

/-- Python truthiness filter for an optional string: None and the empty
string are falsy. -/
def truthy (o : Option String) : Option String :=
  o.bind fun s => if s = "" then none else some s

/-- Source line 71: info.get("longName") or info.get("shortName") or
ticker, with Python `or` returning the first truthy operand. -/
def companyName (info : InfoDict) (ticker : String) : String :=
  (truthy info.longName).getD ((truthy info.shortName).getD ticker)

/-- The mean of the length-50 window of closes ending at index i, as
pandas rolling(window=50).mean() computes it: the sum of the window
divided by 50 (nan in the window makes the result nan). -/
def window50mean (closes : List PyF) (i : ℕ) : PyF :=
  PyF.div (((closes.drop (i + 1 - 50)).take 50).foldl PyF.add (PyF.fin 0))
    (PyF.fin 50)

/-- Source line 81: data.Close.rolling(window=50).mean() — nan for the
first 49 positions, then the trailing 50-window mean. -/
def rolling50 (closes : List PyF) : List PyF :=
  (List.range closes.length).map fun i =>
    if i + 1 < 50 then PyF.nan else window50mean closes i

/-- pandas Series.dropna: remove the nan entries (infinities stay). -/
def dropna (l : List PyF) : List PyF := l.filter fun v => !v.isnan

/-- Source lines 91-96: the MA50 slope.  iloc[-5] is the element at
index (length - 5); the guard guarantees it exists. -/
def slopeOf (ma50_series : List PyF) (ma50_latest : PyF) : PyF :=
  if 5 ≤ ma50_series.length then
    PyF.div
      (PyF.sub ma50_latest (ma50_series.getD (ma50_series.length - 5) PyF.nan))
      (ma50_series.getD (ma50_series.length - 5) PyF.nan)
  else PyF.fin 0

/-- The record assembled on the success path of fetch_stock_data
(source lines 78-124), before validation.  E models math.exp on finite
arguments. -/
def successRaw (E : ℚ → ℚ) (ticker : String) (info : InfoDict)
    (closes : List PyF) : ScoreResult :=
  let company_name := companyName info ticker
  let ma50_series := dropna (rolling50 closes)
  let current_price := closes.getLastD PyF.nan
  let ma50_latest := ma50_series.getLastD PyF.nan
  let slope := slopeOf ma50_series ma50_latest
  let flatness :=
    pymax (PyF.fin 0)
      (PyF.sub (PyF.fin 1) (PyF.div (PyF.habs slope) (PyF.fin (5 / 100))))
  let d := PyF.div (PyF.sub current_price ma50_latest) ma50_latest
  let proximity :=
    pyexp E (PyF.div (PyF.neg (PyF.mul d d)) (PyF.fin (2 * (3 / 100) ^ 2)))
  let bonus :=
    if d.lt (PyF.fin 0) then PyF.add (PyF.fin 1) (PyF.mul (PyF.fin 1) (PyF.neg d))
    else PyF.fin 1
  let score := PyF.mul (PyF.mul flatness proximity) bonus
  { Ticker := ticker
    Company := company_name
    CurrentPrice := some current_price
    MA50 := some ma50_latest
    DistancePct := d
    Flatness := flatness
    Proximity := proximity
    Bonus := bonus
    Score := score }

/-- The record returned by the except branch of fetch_stock_data
(source lines 128-138).  Note it stores Bonus 0.0 and is returned
without passing through validate_result. -/
def fallbackRecord (ticker : String) : ScoreResult :=
  { Ticker := ticker
    Company := ticker
    CurrentPrice := none
    MA50 := none
    DistancePct := PyF.fin 0
    Flatness := PyF.fin 0
    Proximity := PyF.fin 0
    Bonus := PyF.fin 0
    Score := PyF.fin 0 }

/-- fetch_stock_data (source lines 56-138).  The external world is the
FetchOutcome argument; the two ValueError raises inside the try block
(fewer than 50 rows, empty MA50 series) land in the same except branch
as a provider exception.  On success the assembled record is passed
through validate_result; on failure the fallback record is returned
directly. -/
def fetch_stock_data (E : ℚ → ℚ) (ticker : String) (w : FetchOutcome) :
    ScoreResult :=
  match w with
  | FetchOutcome.raises => fallbackRecord ticker
  | FetchOutcome.ok info closes =>
      if closes.length = 0 ∨ closes.length < 50 then fallbackRecord ticker
      else if dropna (rolling50 closes) = [] then fallbackRecord ticker
      else validate_result (successRaw E ticker info closes)

/-- A row of the allocation DataFrame: a ScoreResult with the two
columns added by allocate_investment. -/
structure AllocationRecord extends ScoreResult where
  AllocationPct : PyF
  AllocationPLN : PyF
deriving DecidableEq, Repr

/-- pandas Series.sum as a left fold of float addition starting at 0.
(pandas skips nan entries; every series summed in this program has been
filtered to entries strictly greater than 0, which excludes nan.) -/
def pySum (l : List PyF) : PyF := l.foldl PyF.add (PyF.fin 0)

/-- allocate_investment (source lines 149-164).  pd.DataFrame(data) on
the empty list produces a DataFrame with no columns, so the subsequent
df[df.Score > 0] raises KeyError; that exception is modelled as the
error case of Except.  Otherwise: filter to Score > 0, return [] when
nothing remains or the total is nonpositive, else attach
AllocationPct = Score / total and AllocationPLN = round(pct * capital, 2)
to every remaining row. -/
def allocate_investment (data : List ScoreResult) (monthly_capital : ℚ) :
    Except String (List AllocationRecord) :=
  if data = [] then Except.error "KeyError: Score"
  else
    let df := data.filter fun r => (PyF.fin 0).lt r.Score
    if df = [] then Except.ok []
    else
      let total_score := pySum (df.map fun r => r.Score)
      if total_score.le (PyF.fin 0) then Except.ok []
      else
        Except.ok (df.map fun r =>
          { toScoreResult := r
            AllocationPct := r.Score.div total_score
            AllocationPLN :=
              pyround2 ((r.Score.div total_score).mul (PyF.fin monthly_capital)) })


/-! ### Field-level description of the validator -/

/-- The clamp applied to an out-of-range Flatness or Proximity value:
Python max(0, min(v, 1)). -/
def clamp01 (v : PyF) : PyF := pymax (PyF.fin 0) (pymin v (PyF.fin 1))

/-- The net effect of validate_result on the Flatness field, as a
function of the incoming Flatness alone. -/
def fixRange (v : PyF) : PyF :=
  if v.lt (PyF.fin 0) || (PyF.fin 1).lt v then clamp01 v else v

/-- The net effect of validate_result on the Bonus field. -/
def fixBonus (b : PyF) : PyF :=
  if b.lt (PyF.fin 1) then PyF.fin 1 else b

/-- The net effect of validate_result on the Score field: the bad-price
rule fires first, then the nan-or-infinite rule reads the updated
value. -/
def fixScore (bad : Bool) (s : PyF) : PyF :=
  let s1 := if bad then PyF.fin 0 else s
  if s1.isnan || s1.isinf then PyF.fin 0 else s1

theorem validate_Ticker (r : ScoreResult) :
    (validate_result r).Ticker = r.Ticker := by
  simp [validate_result, vStepScore, vStepBonus, vStepProximity,
    vStepFlatness, vStepPrices, apply_ite (f := ScoreResult.Ticker)]

theorem validate_Company (r : ScoreResult) :
    (validate_result r).Company = r.Company := by
  simp [validate_result, vStepScore, vStepBonus, vStepProximity,
    vStepFlatness, vStepPrices, apply_ite (f := ScoreResult.Company)]

theorem validate_CurrentPrice (r : ScoreResult) :
    (validate_result r).CurrentPrice = r.CurrentPrice := by
  simp [validate_result, vStepScore, vStepBonus, vStepProximity,
    vStepFlatness, vStepPrices, apply_ite (f := ScoreResult.CurrentPrice)]

theorem validate_MA50 (r : ScoreResult) :
    (validate_result r).MA50 = r.MA50 := by
  simp [validate_result, vStepScore, vStepBonus, vStepProximity,
    vStepFlatness, vStepPrices, apply_ite (f := ScoreResult.MA50)]

theorem validate_DistancePct (r : ScoreResult) :
    (validate_result r).DistancePct = r.DistancePct := by
  simp [validate_result, vStepScore, vStepBonus, vStepProximity,
    vStepFlatness, vStepPrices, apply_ite (f := ScoreResult.DistancePct)]

theorem validate_Flatness (r : ScoreResult) :
    (validate_result r).Flatness = fixRange r.Flatness := by
  simp [validate_result, vStepScore, vStepBonus, vStepProximity,
    vStepFlatness, vStepPrices, fixRange, clamp01,
    apply_ite (f := ScoreResult.Flatness)]

theorem validate_Proximity (r : ScoreResult) :
    (validate_result r).Proximity = fixRange r.Proximity := by
  simp [validate_result, vStepScore, vStepBonus, vStepProximity,
    vStepFlatness, vStepPrices, fixRange, clamp01,
    apply_ite (f := ScoreResult.Proximity)]

theorem validate_Bonus (r : ScoreResult) :
    (validate_result r).Bonus = fixBonus r.Bonus := by
  simp [validate_result, vStepScore, vStepBonus, vStepProximity,
    vStepFlatness, vStepPrices, fixBonus,
    apply_ite (f := ScoreResult.Bonus)]

theorem validate_Score (r : ScoreResult) :
    (validate_result r).Score = fixScore (badPrices r) r.Score := by
  simp only [validate_result, vStepScore, vStepBonus, vStepProximity,
    vStepFlatness, vStepPrices, fixScore, badPrices]
  split <;> split <;>
    simp_all [apply_ite (f := ScoreResult.Score), apply_ite PyF.isnan,
      apply_ite PyF.isinf, PyF.isnan, PyF.isinf]

/-! ### Idempotence of the three field fixers -/

theorem clamp01_of_lt_zero {x : ℚ} (h : x < 0) :
    clamp01 (PyF.fin x) = PyF.fin 0 := by
  have h1 : ¬ (1 : ℚ) < x := by linarith
  have h2 : ¬ (0 : ℚ) < x := by linarith
  simp [clamp01, pymin, pymax, PyF.lt, h1, h2]

theorem clamp01_of_one_lt {x : ℚ} (h : 1 < x) :
    clamp01 (PyF.fin x) = PyF.fin 1 := by
  have h1 : (0 : ℚ) < 1 := by norm_num
  simp [clamp01, pymin, pymax, PyF.lt, h, h1]

theorem fixRange_idem (v : PyF) : fixRange (fixRange v) = fixRange v := by
  by_cases hc : (v.lt (PyF.fin 0) || (PyF.fin 1).lt v) = true
  · have hv : fixRange v = clamp01 v := by rw [fixRange, if_pos hc]
    rw [hv]
    cases v with
    | fin x =>
        have hx : x < 0 ∨ 1 < x := by simpa [PyF.lt] using hc
        rcases hx with h | h
        · rw [clamp01_of_lt_zero h]; decide
        · rw [clamp01_of_one_lt h]; decide
    | nan => simp [PyF.lt] at hc
    | inf => decide
    | ninf => decide
  · have hv : fixRange v = v := by rw [fixRange, if_neg hc]
    rw [hv, fixRange, if_neg hc]

theorem fixBonus_idem (b : PyF) : fixBonus (fixBonus b) = fixBonus b := by
  by_cases hc : b.lt (PyF.fin 1) = true
  · have hb : fixBonus b = PyF.fin 1 := by rw [fixBonus, if_pos hc]
    rw [hb]; decide
  · have hb : fixBonus b = b := by rw [fixBonus, if_neg hc]
    rw [hb, fixBonus, if_neg hc]

theorem fixScore_idem (bad : Bool) (s : PyF) :
    fixScore bad (fixScore bad s) = fixScore bad s := by
  cases bad <;> cases s <;> simp [fixScore, PyF.isnan, PyF.isinf]

theorem badPrices_congr {r r' : ScoreResult}
    (h1 : r.CurrentPrice = r'.CurrentPrice) (h2 : r.MA50 = r'.MA50) :
    badPrices r = badPrices r' := by
  unfold badPrices; rw [h1, h2]

theorem badPrices_validate (r : ScoreResult) :
    badPrices (validate_result r) = badPrices r :=
  badPrices_congr (validate_CurrentPrice r) (validate_MA50 r)

/-- Claim C10: the validator is idempotent — applying validate_result
twice yields the same record as applying it once, for every record. -/
theorem validate_result_idem (r : ScoreResult) :
    validate_result (validate_result r) = validate_result r := by
  apply ScoreResult.ext
  · rw [validate_Ticker]
  · rw [validate_Company]
  · rw [validate_CurrentPrice]
  · rw [validate_MA50]
  · rw [validate_DistancePct]
  · rw [validate_Flatness, validate_Flatness]; exact fixRange_idem _
  · rw [validate_Proximity, validate_Proximity]; exact fixRange_idem _
  · rw [validate_Bonus, validate_Bonus]; exact fixBonus_idem _
  · rw [validate_Score, validate_Score, badPrices_validate]
    exact fixScore_idem _ _

/-- Claim C8: when CurrentPrice or MA50 is missing or nonpositive, the
validator forces Score to 0.0 and leaves CurrentPrice and MA50
themselves unchanged. -/
theorem validate_badPrices_zeroes_score (r : ScoreResult)
    (h : badPrices r = true) :
    (validate_result r).Score = PyF.fin 0 ∧
      (validate_result r).CurrentPrice = r.CurrentPrice ∧
      (validate_result r).MA50 = r.MA50 := by
  refine ⟨?_, validate_CurrentPrice r, validate_MA50 r⟩
  rw [validate_Score]
  simp [fixScore, h, PyF.isnan, PyF.isinf]

/-- Witness for claim C8, at a record whose CurrentPrice is negative:
the validated record keeps both price fields and has Score 0.0. -/
theorem validate_badPrices_zeroes_score_witness :
    badPrices
        { Ticker := "X", Company := "X Corp",
          CurrentPrice := some (PyF.fin (-5)), MA50 := some (PyF.fin 3),
          DistancePct := PyF.fin 0, Flatness := PyF.fin 1,
          Proximity := PyF.fin 1, Bonus := PyF.fin 1,
          Score := PyF.fin 7 } = true ∧
      (validate_result
          { Ticker := "X", Company := "X Corp",
            CurrentPrice := some (PyF.fin (-5)), MA50 := some (PyF.fin 3),
            DistancePct := PyF.fin 0, Flatness := PyF.fin 1,
            Proximity := PyF.fin 1, Bonus := PyF.fin 1,
            Score := PyF.fin 7 }).Score = PyF.fin 0 ∧
      (validate_result
          { Ticker := "X", Company := "X Corp",
            CurrentPrice := some (PyF.fin (-5)), MA50 := some (PyF.fin 3),
            DistancePct := PyF.fin 0, Flatness := PyF.fin 1,
            Proximity := PyF.fin 1, Bonus := PyF.fin 1,
            Score := PyF.fin 7 }).CurrentPrice = some (PyF.fin (-5)) ∧
      (validate_result
          { Ticker := "X", Company := "X Corp",
            CurrentPrice := some (PyF.fin (-5)), MA50 := some (PyF.fin 3),
            DistancePct := PyF.fin 0, Flatness := PyF.fin 1,
            Proximity := PyF.fin 1, Bonus := PyF.fin 1,
            Score := PyF.fin 7 }).MA50 = some (PyF.fin 3) := by
  refine ⟨by decide, ?_⟩
  exact validate_badPrices_zeroes_score _ (by decide)

/-! ### The Bonus field of scorer records -/

theorem le_one_bonus (d : PyF) :
    PyF.le (PyF.fin 1)
      (if d.lt (PyF.fin 0) then
        PyF.add (PyF.fin 1) (PyF.mul (PyF.fin 1) (PyF.neg d))
      else PyF.fin 1) = true := by
  cases d with
  | fin x =>
      by_cases h : x < 0
      · simp [PyF.lt, PyF.neg, PyF.mul, PyF.add, PyF.le, h]
        linarith
      · simp [PyF.lt, h, PyF.le]
  | nan => decide
  | inf => decide
  | ninf => decide

theorem successRaw_Bonus_ge (E : ℚ → ℚ) (t : String) (info : InfoDict)
    (closes : List PyF) :
    PyF.le (PyF.fin 1) (successRaw E t info closes).Bonus = true := by
  have h := le_one_bonus
    (PyF.div
      (PyF.sub (closes.getLastD PyF.nan)
        ((dropna (rolling50 closes)).getLastD PyF.nan))
      ((dropna (rolling50 closes)).getLastD PyF.nan))
  simpa [successRaw] using h

theorem fixBonus_ge (b : PyF) (h : PyF.le (PyF.fin 1) b = true) :
    PyF.le (PyF.fin 1) (fixBonus b) = true := by
  cases b with
  | fin x =>
      by_cases hx : x < 1
      · simp [fixBonus, PyF.lt, hx, PyF.le]
      · simp [fixBonus, PyF.lt, hx, PyF.le]
        simp [PyF.le] at h
        exact h
  | nan => simp [PyF.le] at h
  | inf => decide
  | ninf => simp [PyF.le] at h

/-- Unfolding equation for the non-raising branch of fetch_stock_data. -/
theorem fetch_ok_eq (E : ℚ → ℚ) (t : String) (info : InfoDict)
    (closes : List PyF) :
    fetch_stock_data E t (FetchOutcome.ok info closes) =
      if closes.length = 0 ∨ closes.length < 50 then fallbackRecord t
      else if dropna (rolling50 closes) = [] then fallbackRecord t
      else validate_result (successRaw E t info closes) := rfl

/-- Claim C1 counterexample: on the failure path the Scorer returns the
fallback record, whose Bonus field is 0.0, so Bonus is not at least
1.0 on that record. -/
theorem fallback_bonus_below_one :
    (fetch_stock_data (fun _ => 1) "AAPL" FetchOutcome.raises).Bonus =
        PyF.fin 0 ∧
      PyF.le (PyF.fin 1)
        (fetch_stock_data (fun _ => 1) "AAPL" FetchOutcome.raises).Bonus =
        false := by
  decide

/-- Claim C1 amended: every record the Scorer returns either is the
failure fallback record (whose Bonus is 0.0) or has Bonus at least
1.0; in particular the success path always satisfies Bonus at least
1.0. -/
theorem fetch_bonus_ge_one_or_fallback (E : ℚ → ℚ) (t : String)
    (w : FetchOutcome) :
    fetch_stock_data E t w = fallbackRecord t ∨
      PyF.le (PyF.fin 1) (fetch_stock_data E t w).Bonus = true := by
  cases w with
  | raises => exact Or.inl rfl
  | ok info closes =>
      by_cases h1 : closes.length = 0 ∨ closes.length < 50
      · exact Or.inl (by rw [fetch_ok_eq, if_pos h1])
      · by_cases h2 : dropna (rolling50 closes) = []
        · exact Or.inl (by rw [fetch_ok_eq, if_neg h1, if_pos h2])
        · right
          have hf : fetch_stock_data E t (FetchOutcome.ok info closes) =
              validate_result (successRaw E t info closes) := by
            rw [fetch_ok_eq, if_neg h1, if_neg h2]
          rw [hf, validate_Bonus]
          exact fixBonus_ge _ (successRaw_Bonus_ge E t info closes)

/-- The outcomes on which fetch_stock_data takes the except branch:
a provider exception, an empty or too-short history, or an empty MA50
series after dropna. -/
def isFailureOutcome : FetchOutcome → Prop
  | FetchOutcome.raises => True
  | FetchOutcome.ok _ closes =>
      closes.length = 0 ∨ closes.length < 50 ∨ dropna (rolling50 closes) = []

/-- Claim C2: fetch_stock_data is a total function of the ticker and
the external outcome, and on every failure outcome it returns a record
with Ticker and Company both the given ticker, CurrentPrice and MA50
None, DistancePct 0.0 and Score 0.0. -/
theorem fetch_failure_shape (E : ℚ → ℚ) (t : String) (w : FetchOutcome)
    (h : isFailureOutcome w) :
    (fetch_stock_data E t w).Ticker = t ∧
      (fetch_stock_data E t w).Company = t ∧
      (fetch_stock_data E t w).CurrentPrice = none ∧
      (fetch_stock_data E t w).MA50 = none ∧
      (fetch_stock_data E t w).DistancePct = PyF.fin 0 ∧
      (fetch_stock_data E t w).Score = PyF.fin 0 := by
  have hfb : fetch_stock_data E t w = fallbackRecord t := by
    cases w with
    | raises => rfl
    | ok info closes =>
        by_cases h1 : closes.length = 0 ∨ closes.length < 50
        · rw [fetch_ok_eq, if_pos h1]
        · have h2 : dropna (rolling50 closes) = [] := by
            rcases h with h | h | h
            · exact absurd (Or.inl h) h1
            · exact absurd (Or.inr h) h1
            · exact h
          rw [fetch_ok_eq, if_neg h1, if_pos h2]
  rw [hfb]
  exact ⟨rfl, rfl, rfl, rfl, rfl, rfl⟩

/-- Witness for claim C2, at a ticker whose provider call raises. -/
theorem fetch_failure_shape_witness :
    (fetch_stock_data (fun _ => 1) "ZZZ" FetchOutcome.raises).Ticker = "ZZZ" ∧
      (fetch_stock_data (fun _ => 1) "ZZZ" FetchOutcome.raises).Company =
        "ZZZ" ∧
      (fetch_stock_data (fun _ => 1) "ZZZ"
          FetchOutcome.raises).CurrentPrice = none ∧
      (fetch_stock_data (fun _ => 1) "ZZZ" FetchOutcome.raises).MA50 =
        none ∧
      (fetch_stock_data (fun _ => 1) "ZZZ"
          FetchOutcome.raises).DistancePct = PyF.fin 0 ∧
      (fetch_stock_data (fun _ => 1) "ZZZ" FetchOutcome.raises).Score =
        PyF.fin 0 :=
  fetch_failure_shape (fun _ => 1) "ZZZ" FetchOutcome.raises trivial

/-- Claim C3 counterexample: the failure-path fallback record was not
passed through the validator — validating the record the Scorer
returns changes its Bonus field (from 0.0 to 1.0), which could not
happen if that record had already been through the (idempotent)
validator. -/
theorem fallback_not_validated :
    (validate_result
        (fetch_stock_data (fun _ => 1) "MSFT" FetchOutcome.raises)).Bonus ≠
      (fetch_stock_data (fun _ => 1) "MSFT" FetchOutcome.raises).Bonus := by
  decide

/-- Claim C3 amended: only success-path records are passed through the
validator before being returned; the failure-path fallback record is
returned directly, and validating it would change it (its Bonus 0.0
would become 1.0). -/
theorem fetch_validates_success_only (E : ℚ → ℚ) (t : String)
    (info : InfoDict) (closes : List PyF)
    (h1 : ¬(closes.length = 0 ∨ closes.length < 50))
    (h2 : dropna (rolling50 closes) ≠ []) :
    fetch_stock_data E t (FetchOutcome.ok info closes) =
        validate_result (successRaw E t info closes) ∧
      fetch_stock_data E t FetchOutcome.raises = fallbackRecord t ∧
      validate_result (fallbackRecord t) ≠ fallbackRecord t := by
  refine ⟨by rw [fetch_ok_eq, if_neg h1, if_neg h2], rfl, ?_⟩
  intro heq
  have hB := congrArg ScoreResult.Bonus heq
  rw [validate_Bonus] at hB
  have hfb : (fallbackRecord t).Bonus = PyF.fin 0 := rfl
  rw [hfb] at hB
  exact absurd hB (by decide)

/-- Witness for claim C3 amended, at a 50-day constant price series. -/
theorem fetch_validates_success_only_witness :
    fetch_stock_data (fun _ => 1) "KO"
        (FetchOutcome.ok ⟨none, none⟩ (List.replicate 50 (PyF.fin 100))) =
        validate_result (successRaw (fun _ => 1) "KO" ⟨none, none⟩
          (List.replicate 50 (PyF.fin 100))) ∧
      fetch_stock_data (fun _ => 1) "KO" FetchOutcome.raises =
        fallbackRecord "KO" ∧
      validate_result (fallbackRecord "KO") ≠ fallbackRecord "KO" :=
  fetch_validates_success_only (fun _ => 1) "KO" ⟨none, none⟩
    (List.replicate 50 (PyF.fin 100)) (by decide) (by decide)

/-- Claim C4: when company-name resolution yields no usable name (both
keys absent or empty), the Scorer does not abort — the ticker string
itself becomes Company and the price-based metrics are still computed
exactly as on any other success path. -/
theorem name_resolution_fallthrough (E : ℚ → ℚ) (t : String)
    (info : InfoDict) (closes : List PyF)
    (hlong : truthy info.longName = none)
    (hshort : truthy info.shortName = none)
    (h1 : ¬(closes.length = 0 ∨ closes.length < 50))
    (h2 : dropna (rolling50 closes) ≠ []) :
    (fetch_stock_data E t (FetchOutcome.ok info closes)).Company = t ∧
      (fetch_stock_data E t (FetchOutcome.ok info closes)).CurrentPrice =
        some (closes.getLastD PyF.nan) ∧
      (fetch_stock_data E t (FetchOutcome.ok info closes)).MA50 =
        some ((dropna (rolling50 closes)).getLastD PyF.nan) ∧
      fetch_stock_data E t (FetchOutcome.ok info closes) =
        validate_result (successRaw E t info closes) := by
  have hf : fetch_stock_data E t (FetchOutcome.ok info closes) =
      validate_result (successRaw E t info closes) := by
    rw [fetch_ok_eq, if_neg h1, if_neg h2]
  have hcomp : (successRaw E t info closes).Company = t := by
    simp [successRaw, companyName, hlong, hshort]
  have hcp : (successRaw E t info closes).CurrentPrice =
      some (closes.getLastD PyF.nan) := by
    simp [successRaw]
  have hma : (successRaw E t info closes).MA50 =
      some ((dropna (rolling50 closes)).getLastD PyF.nan) := by
    simp [successRaw]
  refine ⟨?_, ?_, ?_, hf⟩
  · rw [hf, validate_Company, hcomp]
  · rw [hf, validate_CurrentPrice, hcp]
  · rw [hf, validate_MA50, hma]

/-- Witness for claim C4: an info dict with an empty long name and no
short name still yields a scored record whose Company is the ticker. -/
theorem name_resolution_fallthrough_witness :
    (fetch_stock_data (fun _ => 1) "GRG.L"
          (FetchOutcome.ok ⟨some "", none⟩
            (List.replicate 50 (PyF.fin 100)))).Company = "GRG.L" ∧
      (fetch_stock_data (fun _ => 1) "GRG.L"
          (FetchOutcome.ok ⟨some "", none⟩
            (List.replicate 50 (PyF.fin 100)))).CurrentPrice =
        some ((List.replicate 50 (PyF.fin 100)).getLastD PyF.nan) ∧
      (fetch_stock_data (fun _ => 1) "GRG.L"
          (FetchOutcome.ok ⟨some "", none⟩
            (List.replicate 50 (PyF.fin 100)))).MA50 =
        some ((dropna (rolling50 (List.replicate 50
          (PyF.fin 100)))).getLastD PyF.nan) ∧
      fetch_stock_data (fun _ => 1) "GRG.L"
          (FetchOutcome.ok ⟨some "", none⟩
            (List.replicate 50 (PyF.fin 100))) =
        validate_result (successRaw (fun _ => 1) "GRG.L" ⟨some "", none⟩
          (List.replicate 50 (PyF.fin 100))) :=
  name_resolution_fallthrough (fun _ => 1) "GRG.L" ⟨some "", none⟩
    (List.replicate 50 (PyF.fin 100)) (by decide) (by decide) (by decide)
    (by decide)

/-- With at least 5 entries, the element the program reads at iloc[-5]
is the fifth most recent one. -/
theorem getD_iloc_neg5 (ma : List PyF) (h : 5 ≤ ma.length) :
    ma.getD (ma.length - 5) PyF.nan = ma.reverse.getD 4 PyF.nan := by
  rw [List.getD_eq_getElem?_getD, List.getD_eq_getElem?_getD,
    List.getElem?_reverse' 4 (ma.length - 5) (by omega)]

/-- Claim C7: with at least 5 defined moving-average values, the slope
is the relative change from the fifth most recent MA value (iloc[-5],
the value spanning the most recent 5 MA periods) to the latest one;
with fewer than 5 values the slope is 0. -/
theorem slopeOf_spec (ma : List PyF) (latest : PyF) :
    (5 ≤ ma.length →
      slopeOf ma latest =
        PyF.div (PyF.sub latest (ma.reverse.getD 4 PyF.nan))
          (ma.reverse.getD 4 PyF.nan)) ∧
      (ma.length < 5 → slopeOf ma latest = PyF.fin 0) := by
  constructor
  · intro h
    rw [slopeOf, if_pos h, getD_iloc_neg5 ma h]
  · intro h
    rw [slopeOf, if_neg (by omega)]

/-- Witness for claim C7: a five-element MA series uses its head (the
fifth most recent value) as the base of the slope; a two-element series
gets slope 0. -/
theorem slopeOf_spec_witness :
    slopeOf [PyF.fin 1, PyF.fin 2, PyF.fin 3, PyF.fin 4, PyF.fin 5]
        (PyF.fin 5) =
      PyF.div
        (PyF.sub (PyF.fin 5)
          (([PyF.fin 1, PyF.fin 2, PyF.fin 3, PyF.fin 4,
            PyF.fin 5].reverse).getD 4 PyF.nan))
        (([PyF.fin 1, PyF.fin 2, PyF.fin 3, PyF.fin 4,
          PyF.fin 5].reverse).getD 4 PyF.nan) ∧
      slopeOf [PyF.fin 7, PyF.fin 8] (PyF.fin 8) = PyF.fin 0 :=
  ⟨(slopeOf_spec [PyF.fin 1, PyF.fin 2, PyF.fin 3, PyF.fin 4, PyF.fin 5]
      (PyF.fin 5)).1 (by decide),
    (slopeOf_spec [PyF.fin 7, PyF.fin 8] (PyF.fin 8)).2 (by decide)⟩

/-! ### The Proximity field on the success path -/

theorem prox_term_fixed (E : ℚ → ℚ)
    (hER : ∀ x : ℚ, x ≤ 0 → 0 ≤ E x ∧ E x ≤ 1) (d : PyF) :
    fixRange (pyexp E (PyF.div (PyF.neg (PyF.mul d d))
        (PyF.fin (2 * (3 / 100) ^ 2)))) =
      pyexp E (PyF.div (PyF.neg (PyF.mul d d))
        (PyF.fin (2 * (3 / 100) ^ 2))) := by
  cases d with
  | fin x =>
      have hc : (2 * ((3 : ℚ) / 100) ^ 2) ≠ 0 := by norm_num
      simp only [PyF.mul, PyF.neg, PyF.div, if_neg hc, pyexp]
      have ha : -(x * x) / (2 * ((3 : ℚ) / 100) ^ 2) ≤ 0 :=
        div_nonpos_iff.mpr
          (Or.inr ⟨by nlinarith [mul_self_nonneg x], by norm_num⟩)
      obtain ⟨hl, hr⟩ := hER _ ha
      have h3 : ¬ E (-(x * x) / (2 * ((3 : ℚ) / 100) ^ 2)) < 0 :=
        not_lt.mpr hl
      have h4 : ¬ 1 < E (-(x * x) / (2 * ((3 : ℚ) / 100) ^ 2)) :=
        not_lt.mpr hr
      simp [fixRange, PyF.lt, h3, h4]
  | nan => rfl
  | inf =>
      have hc2 : ¬ (2 * ((3 : ℚ) / 100) ^ 2) < 0 := by norm_num
      simp only [PyF.mul, PyF.neg, PyF.div, if_neg hc2, pyexp]
      decide
  | ninf =>
      have hc2 : ¬ (2 * ((3 : ℚ) / 100) ^ 2) < 0 := by norm_num
      simp only [PyF.mul, PyF.neg, PyF.div, if_neg hc2, pyexp]
      decide

theorem prox_term_at_zero (E : ℚ → ℚ) (hE0 : E 0 = 1) :
    pyexp E (PyF.div (PyF.neg (PyF.mul (PyF.fin 0) (PyF.fin 0)))
        (PyF.fin (2 * (3 / 100) ^ 2))) = PyF.fin 1 := by
  have hc : (2 * ((3 : ℚ) / 100) ^ 2) ≠ 0 := by norm_num
  simp only [PyF.mul, PyF.neg, PyF.div, if_neg hc, pyexp]
  norm_num [hE0]

/-- Claim C9: on the success path, Proximity is exactly the Gaussian
exp of minus DistancePct squared over twice 0.03 squared, and when
DistancePct is exactly 0 the Proximity is exactly 1.0.  The facts used
about math.exp are that exp 0 = 1.0 exactly and that exp of a
nonpositive float lies in [0, 1]. -/
theorem proximity_gaussian (E : ℚ → ℚ) (hE0 : E 0 = 1)
    (hER : ∀ x : ℚ, x ≤ 0 → 0 ≤ E x ∧ E x ≤ 1)
    (t : String) (info : InfoDict) (closes : List PyF)
    (h1 : ¬(closes.length = 0 ∨ closes.length < 50))
    (h2 : dropna (rolling50 closes) ≠ []) :
    (fetch_stock_data E t (FetchOutcome.ok info closes)).Proximity =
        pyexp E (PyF.div
          (PyF.neg (PyF.mul
            (fetch_stock_data E t (FetchOutcome.ok info closes)).DistancePct
            (fetch_stock_data E t (FetchOutcome.ok info closes)).DistancePct))
          (PyF.fin (2 * (3 / 100) ^ 2))) ∧
      ((fetch_stock_data E t (FetchOutcome.ok info closes)).DistancePct =
          PyF.fin 0 →
        (fetch_stock_data E t (FetchOutcome.ok info closes)).Proximity =
          PyF.fin 1) := by
  have hf : fetch_stock_data E t (FetchOutcome.ok info closes) =
      validate_result (successRaw E t info closes) := by
    rw [fetch_ok_eq, if_neg h1, if_neg h2]
  have hdp : (fetch_stock_data E t (FetchOutcome.ok info closes)).DistancePct =
      PyF.div
        (PyF.sub (closes.getLastD PyF.nan)
          ((dropna (rolling50 closes)).getLastD PyF.nan))
        ((dropna (rolling50 closes)).getLastD PyF.nan) := by
    rw [hf, validate_DistancePct]
    simp [successRaw]
  have hsp : (successRaw E t info closes).Proximity =
      pyexp E (PyF.div
        (PyF.neg (PyF.mul
          (PyF.div
            (PyF.sub (closes.getLastD PyF.nan)
              ((dropna (rolling50 closes)).getLastD PyF.nan))
            ((dropna (rolling50 closes)).getLastD PyF.nan))
          (PyF.div
            (PyF.sub (closes.getLastD PyF.nan)
              ((dropna (rolling50 closes)).getLastD PyF.nan))
            ((dropna (rolling50 closes)).getLastD PyF.nan))))
        (PyF.fin (2 * (3 / 100) ^ 2))) := by
    simp [successRaw]
  have hpx : (fetch_stock_data E t (FetchOutcome.ok info closes)).Proximity =
      pyexp E (PyF.div
        (PyF.neg (PyF.mul
          (fetch_stock_data E t (FetchOutcome.ok info closes)).DistancePct
          (fetch_stock_data E t (FetchOutcome.ok info closes)).DistancePct))
        (PyF.fin (2 * (3 / 100) ^ 2))) := by
    rw [hf, validate_Proximity, hsp, ← hf, hdp]
    exact prox_term_fixed E hER _
  refine ⟨hpx, fun h0 => ?_⟩
  rw [hpx, h0]
  exact prox_term_at_zero E hE0

/-- Witness for claim C9, at a 50-day constant series priced exactly at
its moving average (DistancePct 0), with the exp model instantiated by
a function satisfying the two exp facts. -/
theorem proximity_gaussian_witness :
    ((fetch_stock_data (fun _ => 1) "PEP"
          (FetchOutcome.ok ⟨some "PepsiCo", none⟩
            (List.replicate 50 (PyF.fin 100)))).Proximity =
        pyexp (fun _ => 1) (PyF.div
          (PyF.neg (PyF.mul
            (fetch_stock_data (fun _ => 1) "PEP"
                (FetchOutcome.ok ⟨some "PepsiCo", none⟩
                  (List.replicate 50 (PyF.fin 100)))).DistancePct
            (fetch_stock_data (fun _ => 1) "PEP"
                (FetchOutcome.ok ⟨some "PepsiCo", none⟩
                  (List.replicate 50 (PyF.fin 100)))).DistancePct))
          (PyF.fin (2 * (3 / 100) ^ 2))) ∧
      ((fetch_stock_data (fun _ => 1) "PEP"
            (FetchOutcome.ok ⟨some "PepsiCo", none⟩
              (List.replicate 50 (PyF.fin 100)))).DistancePct = PyF.fin 0 →
        (fetch_stock_data (fun _ => 1) "PEP"
            (FetchOutcome.ok ⟨some "PepsiCo", none⟩
              (List.replicate 50 (PyF.fin 100)))).Proximity = PyF.fin 1)) :=
  proximity_gaussian (fun _ => 1) rfl
    (fun _ _ => ⟨by norm_num, by norm_num⟩) "PEP" ⟨some "PepsiCo", none⟩
    (List.replicate 50 (PyF.fin 100)) (by decide) (by decide)

/-! ### The allocator -/

/-- The rational carried by a finite float (0 for the special values);
proof bookkeeping for sums of finite floats. -/
def toQ : PyF → ℚ
  | PyF.fin q => q
  | _ => 0

theorem foldl_add_fin (l : List PyF) (hl : ∀ x ∈ l, x.isFinite = true)
    (a : ℚ) :
    l.foldl PyF.add (PyF.fin a) = PyF.fin (a + (l.map toQ).sum) := by
  induction l generalizing a with
  | nil => simp
  | cons x xs ih =>
      obtain ⟨q, rfl⟩ : ∃ q, x = PyF.fin q := by
        have hx := hl x (List.mem_cons_self x xs)
        cases x <;> simp_all [PyF.isFinite]
      rw [List.foldl_cons]
      show xs.foldl PyF.add (PyF.fin (a + q)) = _
      rw [ih (fun y hy => hl y (List.mem_cons_of_mem _ hy))]
      simp [toQ]
      ring

theorem pySum_fin (l : List PyF) (hl : ∀ x ∈ l, x.isFinite = true) :
    pySum l = PyF.fin (l.map toQ).sum := by
  have h := foldl_add_fin l hl 0
  rw [zero_add] at h
  exact h

theorem map_div_sum (l : List ℚ) (T : ℚ) :
    (l.map fun q => q / T).sum = l.sum / T := by
  induction l with
  | nil => simp
  | cons x xs ih => simp [ih, add_div]

theorem le_zero_not_pos (s : PyF) (h : s.le (PyF.fin 0) = true) :
    (PyF.fin 0).lt s = false := by
  cases s <;> simp_all [PyF.le, PyF.lt]

/-- Claim C6 counterexample: on the empty record list the allocator
raises (pandas KeyError on the missing Score column of an empty
DataFrame) instead of returning an empty list. -/
theorem allocate_empty_raises :
    allocate_investment [] 100 = Except.error "KeyError: Score" := rfl

/-- Claim C6 amended: for every NON-EMPTY list of records in which
every record has Score at most 0, and every capital value, the
allocator returns the empty list without raising; on the empty list it
raises KeyError. -/
theorem allocate_all_nonpos (data : List ScoreResult) (c : ℚ)
    (hne : data ≠ [])
    (hle : ∀ r ∈ data, r.Score.le (PyF.fin 0) = true) :
    allocate_investment data c = Except.ok [] := by
  have hfil : data.filter (fun r => (PyF.fin 0).lt r.Score) = [] := by
    rw [List.filter_eq_nil_iff]
    intro r hr
    simp [le_zero_not_pos r.Score (hle r hr)]
  simp [allocate_investment, hne, hfil]

/-- Witness for claim C6 amended: a one-element list holding a
zero-score fallback record allocates nothing. -/
theorem allocate_all_nonpos_witness :
    allocate_investment [fallbackRecord "LEG"] 3000 = Except.ok [] :=
  allocate_all_nonpos [fallbackRecord "LEG"] 3000 (by decide) (by decide)

theorem le_fin_fin (a b : ℚ) : (PyF.fin a).le (PyF.fin b) = decide (a ≤ b) :=
  rfl

theorem isFinite_exists (s : PyF) (h : s.isFinite = true) :
    ∃ q, s = PyF.fin q := by
  cases s with
  | fin q => exact ⟨q, rfl⟩
  | nan => simp [PyF.isFinite] at h
  | inf => simp [PyF.isFinite] at h
  | ninf => simp [PyF.isFinite] at h

theorem pySum_div_fin (l : List PyF) (T : ℚ) (hT : T ≠ 0)
    (hl : ∀ x ∈ l, x.isFinite = true) :
    pySum (l.map fun s => s.div (PyF.fin T)) =
      PyF.fin ((l.map toQ).sum / T) := by
  have h1 : ∀ x ∈ l.map (fun s => s.div (PyF.fin T)), x.isFinite = true := by
    intro x hx
    obtain ⟨s, hs, rfl⟩ := List.mem_map.mp hx
    obtain ⟨q, rfl⟩ : ∃ q, s = PyF.fin q := by
      have := hl s hs
      cases s <;> simp_all [PyF.isFinite]
    simp [PyF.div, hT, PyF.isFinite]
  rw [pySum_fin _ h1, List.map_map]
  congr 1
  rw [← map_div_sum (l.map toQ) T, List.map_map]
  apply congrArg List.sum
  apply List.map_congr_left
  intro s hs
  obtain ⟨q, rfl⟩ : ∃ q, s = PyF.fin q := by
    have := hl s hs
    cases s <;> simp_all [PyF.isFinite]
  simp [Function.comp, PyF.div, hT, toQ]

/-- Claim C5: whenever some record has Score strictly greater than 0
(and, per the data-model invariant, all Scores are finite floats), the
allocator succeeds, assigns every output row AllocationPct equal to its
Score over the total filtered Score and AllocationPLN (the
spec-level AllocationAmount) equal to the 2-decimal rounding of
AllocationPct times the capital, and the AllocationPct values sum to
1.0 within a tolerance of 1e-9 (in fact exactly, finite values being
modelled exactly). -/
theorem allocate_proportional (data : List ScoreResult) (c : ℚ)
    (hfin : ∀ r ∈ data, r.Score.isFinite = true)
    (hpos : ∃ r ∈ data, (PyF.fin 0).lt r.Score = true) :
    ∃ out, allocate_investment data c = Except.ok out ∧
      out ≠ [] ∧
      (∀ a ∈ out,
        a.AllocationPct =
          a.Score.div (pySum ((data.filter fun r =>
            (PyF.fin 0).lt r.Score).map fun r => r.Score)) ∧
        a.AllocationPLN =
          pyround2 (a.AllocationPct.mul (PyF.fin c))) ∧
      (∃ S : ℚ, pySum (out.map fun a => a.AllocationPct) = PyF.fin S ∧
        |S - 1| ≤ 1 / 1000000000) := by
  obtain ⟨r0, hr0, hr0pos⟩ := hpos
  have hne : ¬ (data = []) := by
    intro h
    subst h
    simp at hr0
  have hr0df : r0 ∈ data.filter (fun r => (PyF.fin 0).lt r.Score) :=
    List.mem_filter.mpr ⟨hr0, hr0pos⟩
  have hdfne : ¬ (data.filter (fun r => (PyF.fin 0).lt r.Score) = []) := by
    intro h
    rw [h] at hr0df
    simp at hr0df
  have hdffin : ∀ x ∈ (data.filter (fun r => (PyF.fin 0).lt r.Score)).map
      (fun r => r.Score), x.isFinite = true := by
    intro x hx
    obtain ⟨r, hr, rfl⟩ := List.mem_map.mp hx
    exact hfin r (List.mem_of_mem_filter hr)
  have hsum : pySum ((data.filter (fun r => (PyF.fin 0).lt r.Score)).map
      (fun r => r.Score)) =
      PyF.fin (((data.filter (fun r => (PyF.fin 0).lt r.Score)).map
        (fun r => r.Score)).map toQ).sum :=
    pySum_fin _ hdffin
  have hTpos : 0 < (((data.filter (fun r => (PyF.fin 0).lt r.Score)).map
      (fun r => r.Score)).map toQ).sum := by
    apply List.sum_pos
    · intro x hx
      obtain ⟨s, hs, rfl⟩ := List.mem_map.mp hx
      obtain ⟨r, hr, rfl⟩ := List.mem_map.mp hs
      have hlt := (List.mem_filter.mp hr).2
      have hf := hfin r (List.mem_of_mem_filter hr)
      obtain ⟨q, hq⟩ := isFinite_exists _ hf
      rw [hq] at hlt
      rw [hq]
      simp only [toQ]
      simpa [PyF.lt] using hlt
    · simp [hdfne]
  have hTne : (((data.filter (fun r => (PyF.fin 0).lt r.Score)).map
      (fun r => r.Score)).map toQ).sum ≠ 0 := ne_of_gt hTpos
  have hguard : ¬ ((pySum ((data.filter (fun r => (PyF.fin 0).lt r.Score)).map
      (fun r => r.Score))).le (PyF.fin 0) = true) := by
    rw [hsum, le_fin_fin]
    simp only [decide_eq_true_eq]
    exact not_le.mpr hTpos
  have halloc : allocate_investment data c =
      Except.ok ((data.filter (fun r => (PyF.fin 0).lt r.Score)).map
        (fun r =>
          { toScoreResult := r
            AllocationPct := r.Score.div
              (pySum ((data.filter (fun r => (PyF.fin 0).lt r.Score)).map
                (fun r => r.Score)))
            AllocationPLN := pyround2
              ((r.Score.div
                (pySum ((data.filter (fun r => (PyF.fin 0).lt r.Score)).map
                  (fun r => r.Score)))).mul (PyF.fin c)) })) := by
    simp only [allocate_investment, if_neg hne, if_neg hdfne, if_neg hguard]
  refine ⟨_, halloc, ?_, ?_, ?_⟩
  · simp [hdfne]
  · intro a ha
    obtain ⟨r, hr, rfl⟩ := List.mem_map.mp ha
    exact ⟨rfl, rfl⟩
  · refine ⟨1, ?_, by norm_num⟩
    have hout : (((data.filter (fun r => (PyF.fin 0).lt r.Score)).map
        (fun r =>
          ({ toScoreResult := r
             AllocationPct := r.Score.div
               (pySum ((data.filter (fun r => (PyF.fin 0).lt r.Score)).map
                 (fun r => r.Score)))
             AllocationPLN := pyround2
               ((r.Score.div
                 (pySum ((data.filter (fun r => (PyF.fin 0).lt r.Score)).map
                   (fun r => r.Score)))).mul (PyF.fin c)) } :
            AllocationRecord))).map (fun a => a.AllocationPct)) =
        ((data.filter (fun r => (PyF.fin 0).lt r.Score)).map
          (fun r => r.Score)).map (fun s => s.div
            (PyF.fin (((data.filter (fun r => (PyF.fin 0).lt r.Score)).map
              (fun r => r.Score)).map toQ).sum)) := by
      rw [List.map_map, List.map_map]
      apply List.map_congr_left
      intro r hr
      show r.Score.div
          (pySum ((data.filter (fun r => (PyF.fin 0).lt r.Score)).map
            (fun r => r.Score))) =
        r.Score.div
          (PyF.fin (((data.filter (fun r => (PyF.fin 0).lt r.Score)).map
            (fun r => r.Score)).map toQ).sum)
      rw [hsum]
    rw [hout, pySum_div_fin _ _ hTne hdffin, div_self hTne]

/-- Witness for claim C5, at the two-record scenario with Scores 2.0
and 1.0 and capital 300: the allocator succeeds, every row carries the
proportional fields, and the percentages sum to 1. -/
theorem allocate_proportional_witness :
    ∃ out,
      allocate_investment
          [(⟨"A", "A", some (PyF.fin 10), some (PyF.fin 10), PyF.fin 0,
             PyF.fin 1, PyF.fin 1, PyF.fin 2, PyF.fin 2⟩ : ScoreResult),
           (⟨"B", "B", some (PyF.fin 10), some (PyF.fin 10), PyF.fin 0,
             PyF.fin 1, PyF.fin 1, PyF.fin 1, PyF.fin 1⟩ : ScoreResult)]
          300 = Except.ok out ∧
      out ≠ [] ∧
      (∀ a ∈ out,
        a.AllocationPct =
          a.Score.div (pySum ((
            [(⟨"A", "A", some (PyF.fin 10), some (PyF.fin 10), PyF.fin 0,
               PyF.fin 1, PyF.fin 1, PyF.fin 2, PyF.fin 2⟩ : ScoreResult),
             (⟨"B", "B", some (PyF.fin 10), some (PyF.fin 10), PyF.fin 0,
               PyF.fin 1, PyF.fin 1, PyF.fin 1, PyF.fin 1⟩ :
              ScoreResult)].filter fun r =>
                (PyF.fin 0).lt r.Score).map fun r => r.Score)) ∧
        a.AllocationPLN = pyround2 (a.AllocationPct.mul (PyF.fin 300))) ∧
      (∃ S : ℚ, pySum (out.map fun a => a.AllocationPct) = PyF.fin S ∧
        |S - 1| ≤ 1 / 1000000000) :=
  allocate_proportional _ 300 (by decide) (by decide)
